import Mathlib

/-!
# Verification of the UAD-NG ADB command layer (`crates/uad-core/src/adb.rs`)

Shallow embedding of the pure logic of the ADB command-abstraction layer:
identifier validation (`PackageId::new`, `is_pkg_component`), output
normalization (`to_trimmed_utf8`, i.e. lossy UTF-8 decoding plus trailing
whitespace trimming), the output parsers (`devices`, `list packages`,
`list users`), the shell-command builders (`list_packages_sys`), and the
error-selection logic of the two protocol executors
(`run_system_command`, `run_shell_command_builtin`).

Strings are modelled as `List Char` (a Lean `String` is exactly a list of
characters); raw process output is modelled as `List Nat` (bytes).
External effects (spawning `adb`, talking to the ADB server) are modelled
by passing their results — exit status, stdout/stderr bytes, the device
enumeration — as explicit arguments to the embedded decision logic.
-/

namespace Uadng

/-! ## Generic string helpers mirroring the Rust `str` primitives used -/

/-- Rust `str::split(sep)` for a single-`Char` separator: always returns at
least one (possibly empty) piece; `n` separators give `n + 1` pieces. -/
def splitChar (sep : Char) : List Char → List (List Char)
  | [] => [[]]
  | c :: rest =>
    let r := splitChar sep rest
    if c = sep then [] :: r else (c :: r.headD []) :: r.tail

/-- Rust `str::split_once(sep)`: split at the first occurrence of `sep`,
`none` when `sep` does not occur. -/
def splitOnce (sep : Char) : List Char → Option (List Char × List Char)
  | [] => none
  | c :: rest =>
    if c = sep then some ([], rest)
    else (splitOnce sep rest).map (fun p => (c :: p.1, p.2))

/-- Rust `str::strip_prefix(pat)` (by another string): `some` remainder when
`pat` heads the string, else `none`. -/
def stripPre : List Char → List Char → Option (List Char)
  | [], l => some l
  | _ :: _, [] => none
  | p :: ps, c :: cs => if c = p then stripPre ps cs else none

/-- Rust `str::strip_suffix(pat)` (by another string). -/
def stripSuf (pat l : List Char) : Option (List Char) :=
  (stripPre pat.reverse l.reverse).map List.reverse

/-- Rust `str::strip_suffix(ch)` (by a single character). -/
def stripSufChar (ch : Char) (l : List Char) : Option (List Char) :=
  match l.getLast? with
  | some c => if c = ch then some l.dropLast else none
  | none => none

/-- Rust `u8::is_ascii_whitespace` lifted to characters:
space, tab, newline, carriage return, form feed. -/
def isAsciiWs (c : Char) : Bool :=
  c = ' ' || c = '\t' || c = '\n' || c = '\x0d' || c = '\x0c'

/-- Rust `str::trim_ascii_end`. -/
def trimAsciiEnd (l : List Char) : List Char :=
  (l.reverse.dropWhile isAsciiWs).reverse

/-- Rust `str::trim_ascii` (both ends). -/
def trimAscii (l : List Char) : List Char :=
  trimAsciiEnd (l.dropWhile isAsciiWs)

/-- Rust `char::is_whitespace`: the Unicode `White_Space` code points. -/
def isRustWs (c : Char) : Bool :=
  let n := c.toNat
  (0x9 ≤ n && n ≤ 0xD) || n = 0x20 || n = 0x85 || n = 0xA0 || n = 0x1680 ||
    (0x2000 ≤ n && n ≤ 0x200A) || n = 0x2028 || n = 0x2029 || n = 0x202F ||
    n = 0x205F || n = 0x3000

/-- Rust `str::trim_end` (Unicode whitespace). -/
def trimEnd (l : List Char) : List Char :=
  (l.reverse.dropWhile isRustWs).reverse

/-- The whitespace tail removed by `trimEnd`. -/
def wsTail (l : List Char) : List Char :=
  (l.reverse.takeWhile isRustWs).reverse

/-- Rust `str::lines`: pieces terminated by `\n` (a terminated piece also
loses one trailing `\r`); the final unterminated piece is kept as-is, and
a trailing empty piece (from a final `\n`) is not produced. -/
def rustLines (s : List Char) : List (List Char) :=
  let parts := splitChar '\n' s
  let stripCR : List Char → List Char := fun l =>
    if l.getLast? = some '\x0d' then l.dropLast else l
  let init := parts.dropLast.map stripCR
  match parts.getLast? with
  | some [] => init
  | some last => init ++ [last]
  | none => init

/-- Rust `str::split_whitespace` (auxiliary accumulator form):
maximal runs of non-whitespace characters, empties never produced. -/
def splitWsAux : List Char → List Char → List (List Char)
  | acc, [] => if acc.isEmpty then [] else [acc.reverse]
  | acc, c :: rest =>
    if isRustWs c then
      if acc.isEmpty then splitWsAux [] rest
      else acc.reverse :: splitWsAux [] rest
    else splitWsAux (c :: acc) rest

/-- Rust `str::split_whitespace`. -/
def splitWhitespace (l : List Char) : List (List Char) :=
  splitWsAux [] l

/-! ## Output normalization (`to_trimmed_utf8`, `adb.rs:63`)

Rust's `String::from_utf8_lossy` replaces each maximal valid prefix of an
ill-formed UTF-8 sequence with one U+FFFD ("substitution of maximal
subparts").  We embed it as a byte-at-a-time state machine: the state
records how many continuation bytes are still expected, the admissible
range for the next byte (narrowed after `E0`, `ED`, `F0`, `F4` leads), and
the code point accumulated so far. -/

/-- The Unicode replacement character U+FFFD. -/
def replacementChar : Char := Char.ofNat 0xFFFD

/-- Decoder state: either at a sequence boundary, or inside a multi-byte
sequence expecting `need` more bytes, the next of which must lie in
`[lo, hi]` (later ones in `[0x80, 0xBF]`), with `acc` the bits read. -/
inductive Utf8State
  | start
  | cont (need lo hi acc : Nat)
deriving DecidableEq

/-- Handle one byte at a sequence boundary: ASCII is emitted directly, a
legal lead byte opens a `cont` state, anything else is replaced. -/
def utf8StepStart (b : Nat) : List Char × Utf8State :=
  if b < 0x80 then ([Char.ofNat b], .start)
  else if 0xC2 ≤ b ∧ b ≤ 0xDF then ([], .cont 1 0x80 0xBF (b - 0xC0))
  else if b = 0xE0 then ([], .cont 2 0xA0 0xBF 0)
  else if 0xE1 ≤ b ∧ b ≤ 0xEC then ([], .cont 2 0x80 0xBF (b - 0xE0))
  else if b = 0xED then ([], .cont 2 0x80 0x9F 0xD)
  else if 0xEE ≤ b ∧ b ≤ 0xEF then ([], .cont 2 0x80 0xBF (b - 0xE0))
  else if b = 0xF0 then ([], .cont 3 0x90 0xBF 0)
  else if 0xF1 ≤ b ∧ b ≤ 0xF3 then ([], .cont 3 0x80 0xBF (b - 0xF0))
  else if b = 0xF4 then ([], .cont 3 0x80 0x8F 4)
  else ([replacementChar], .start)

/-- Handle one byte in any state.  A continuation byte outside its
admissible range yields one U+FFFD for the consumed prefix and the byte
is reconsidered as a fresh sequence start. -/
def utf8Step (s : Utf8State) (b : Nat) : List Char × Utf8State :=
  match s with
  | .start => utf8StepStart b
  | .cont need lo hi acc =>
    if lo ≤ b ∧ b ≤ hi then
      let acc2 := acc * 64 + (b - 0x80)
      if need = 1 then ([Char.ofNat acc2], .start)
      else ([], .cont (need - 1) 0x80 0xBF acc2)
    else
      let p := utf8StepStart b
      (replacementChar :: p.1, p.2)

/-- End of input: an unfinished sequence yields one final U+FFFD. -/
def utf8Finish : Utf8State → List Char
  | .start => []
  | .cont _ _ _ _ => [replacementChar]

/-- Run the decoder from a given state over the remaining bytes. -/
def utf8LossyFrom (s : Utf8State) : List Nat → List Char
  | [] => utf8Finish s
  | b :: rest =>
    let p := utf8Step s b
    p.1 ++ utf8LossyFrom p.2 rest

/-- Rust `String::from_utf8_lossy`, as characters. -/
def utf8Lossy (v : List Nat) : List Char :=
  utf8LossyFrom .start v

/-- `to_trimmed_utf8` (`adb.rs:63`): lossy UTF-8 decoding followed by
`str::trim_end`. -/
def to_trimmed_utf8 (v : List Nat) : String :=
  ⟨trimEnd (utf8Lossy v)⟩

/-! ## The system-backend command executor (`run_system_command`,
`adb.rs:335`)

The process spawn itself is external I/O; its observable completion — the
exit status and the captured stdout/stderr byte streams — is passed in as
explicit arguments, and we embed the result-selection logic. -/

/-- `ACommand::run_system_command` (`adb.rs:335`), given the completion of
the spawned process: on success the trimmed stdout, on failure an error
carrying the trimmed stdout if non-empty, else the trimmed stderr. -/
def run_system_command (success : Bool) (stdout stderr : List Nat) :
    Except String String :=
  let out := to_trimmed_utf8 stdout
  if success then .ok out
  else .error (if out.isEmpty then to_trimmed_utf8 stderr else out)

theorem trimEnd_append_wsTail (l : List Char) : l = trimEnd l ++ wsTail l := by
  calc l = l.reverse.reverse := (List.reverse_reverse l).symm
    _ = (l.reverse.takeWhile isRustWs ++ l.reverse.dropWhile isRustWs).reverse := by
        rw [List.takeWhile_append_dropWhile]
    _ = trimEnd l ++ wsTail l := by
        rw [List.reverse_append]
        rfl

theorem mem_wsTail_ws {l : List Char} {c : Char} (h : c ∈ wsTail l) :
    isRustWs c = true := by
  unfold wsTail at h
  rw [List.mem_reverse] at h
  exact List.mem_takeWhile_imp h

theorem head_dropWhile_not_ws (m : List Char) (c : Char)
    (h : (m.dropWhile isRustWs).head? = some c) : isRustWs c = false := by
  induction m with
  | nil => simp [List.dropWhile] at h
  | cons a t ih =>
    rw [List.dropWhile_cons] at h
    by_cases hp : isRustWs a = true
    · rw [if_pos hp] at h
      exact ih h
    · rw [if_neg hp] at h
      simp only [List.head?_cons, Option.some.injEq] at h
      subst h
      simpa using hp

theorem getLast_trimEnd_not_ws (l : List Char) (c : Char)
    (h : (trimEnd l).getLast? = some c) : isRustWs c = false := by
  unfold trimEnd at h
  rw [List.getLast?_reverse] at h
  exact head_dropWhile_not_ws l.reverse c h

/-! ## Package-identifier validation (`is_pkg_component`, `PackageId::new`)

`adb.rs` lines 419–448. -/

/-- Modelled from the spec: `is_all_w_c` lives in the crate's `utils`
module, which is not among the provided sources. Per the spec, the
remainder of a component "consists only of ASCII word characters
(letters, digits, underscore)", so this holds exactly when every
character is ASCII alphanumeric or an underscore. -/
def is_all_w_c (s : List Char) : Bool :=
  s.all (fun c => c.isAlphanum || c = '_')

/-- `is_pkg_component` (`adb.rs:420`): non-empty, first byte an ASCII
letter, and (unless the component is a single byte) every later byte an
ASCII word character. -/
def is_pkg_component (s : List Char) : Bool :=
  !s.isEmpty && (s.headD ' ').isAlpha && (s.length = 1 || is_all_w_c (s.drop 1))

/-- `PackageId::new` (`adb.rs:432`): split on `.`; the first two components
must exist and be valid, and every remaining component must be valid; on
success the original string is wrapped unchanged. -/
def PackageId.new (p_id : List Char) : Option (List Char) :=
  match splitChar '.' p_id with
  | c1 :: c2 :: rest =>
    if is_pkg_component c1 && is_pkg_component c2 && rest.all is_pkg_component then
      some p_id
    else
      none
  | _ => none

/-! Spec-side component grammar `[A-Za-z][A-Za-z0-9_]*`, written from the
spec's words, to be compared with the source-side `is_pkg_component`. -/

/-- An ASCII letter `[A-Za-z]`, as the spec's grammar names it. -/
def specLetter (c : Char) : Bool :=
  (65 ≤ c.toNat && c.toNat ≤ 90) || (97 ≤ c.toNat && c.toNat ≤ 122)

/-- An ASCII word character `[A-Za-z0-9_]`, as the spec's grammar names it. -/
def specWordChar (c : Char) : Bool :=
  specLetter c || (48 ≤ c.toNat && c.toNat ≤ 57) || c = '_'

/-- A component matching the spec's regex `[A-Za-z][A-Za-z0-9_]*`. -/
def specComponentOk : List Char → Bool
  | [] => false
  | a :: t => specLetter a && t.all specWordChar

theorem uint32_le_iff (a b : UInt32) : a ≤ b ↔ a.toNat ≤ b.toNat := by
  rw [UInt32.le_def, BitVec.le_def]
  exact Iff.rfl

theorem isAlpha_eq_specLetter (c : Char) : c.isAlpha = specLetter c := by
  have h65 : (65 : UInt32).toNat = 65 := rfl
  have h90 : (90 : UInt32).toNat = 90 := rfl
  have h97 : (97 : UInt32).toNat = 97 := rfl
  have h122 : (122 : UInt32).toNat = 122 := rfl
  rw [Bool.eq_iff_iff]
  simp only [Char.isAlpha, Char.isUpper, Char.isLower, specLetter, Char.toNat,
    Bool.or_eq_true, Bool.and_eq_true, decide_eq_true_eq, ge_iff_le,
    uint32_le_iff, h65, h90, h97, h122]

theorem isAlphanum_eq_specWordChar_aux (c : Char) :
    (c.isAlphanum || c = '_') = specWordChar c := by
  have h48 : (48 : UInt32).toNat = 48 := rfl
  have h57 : (57 : UInt32).toNat = 57 := rfl
  rw [Bool.eq_iff_iff]
  simp only [Char.isAlphanum, Char.isDigit, specWordChar,
    isAlpha_eq_specLetter, Char.toNat, Bool.or_eq_true, Bool.and_eq_true,
    decide_eq_true_eq, ge_iff_le, uint32_le_iff, h48, h57]

/-- The source-side component check coincides with the spec's grammar. -/
theorem is_pkg_component_eq_spec (s : List Char) :
    is_pkg_component s = specComponentOk s := by
  cases s with
  | nil => rfl
  | cons a t =>
    cases t with
    | nil =>
      simp [is_pkg_component, specComponentOk, isAlpha_eq_specLetter]
    | cons b u =>
      simp only [is_pkg_component, specComponentOk, is_all_w_c,
        List.isEmpty_cons, Bool.not_false, Bool.true_and, List.headD_cons,
        List.length_cons, List.drop_succ_cons, List.drop_zero,
        isAlpha_eq_specLetter, isAlphanum_eq_specWordChar_aux]
      have hlen : decide (u.length + 1 + 1 = 1) = false := by
        simp
      rw [hlen]
      simp

/-! ## External-backend device-list parsing (`ACommand::devices_system`,
`adb.rs:306`) -/

/-- The pure parsing step of `devices_system`: skip the header line, then
split each line at its first tab into `(serial, status)`; lines without a
tab are skipped. -/
def devices_system_parse (raw : List Char) : List (List Char × List Char) :=
  ((rustLines raw).drop 1).filterMap (fun line => splitOnce '\t' line)

/-! ## The `pm` command builder and its parsers (`adb.rs:450`–`539`) -/

/-- `PmListPacksFlag` (`adb.rs:452`). -/
inductive PmListPacksFlag
  | includeUninstalled
  | onlyEnabled
  | onlyDisabled
deriving DecidableEq

/-- `PmListPacksFlag::as_str` (`adb.rs:461`). -/
def PmListPacksFlag.as_str : PmListPacksFlag → String
  | .includeUninstalled => "-u"
  | .onlyEnabled => "-e"
  | .onlyDisabled => "-d"

/-- The constant the source calls `PACK_PREFIX` (`adb.rs:476`): the fixed
`"package:"` line tag of `pm list packages` output. -/
def PACK_MARK : List Char := "package:".data

/-- The shell command built by `PmCommand::list_packages_sys`
(`adb.rs:497`–`503`): `"pm list packages -s"`, extended by the flag token
and the `--user N` narrowing when present. -/
def list_packages_cmd (flag : Option PmListPacksFlag)
    (user_id : Option Nat) : String :=
  let command := "pm list packages -s"
  let command :=
    match flag with
    | some f => command ++ " " ++ f.as_str
    | none => command
  match user_id with
  | some uid => command ++ " --user " ++ toString uid
  | none => command

/-- The pure parsing step of `list_packages_sys` (`adb.rs:505`–`514`):
drop the fixed tag from every line, skipping lines without it. -/
def list_packages_parse (raw : List Char) : List (List Char) :=
  (rustLines raw).filterMap (fun line => stripPre PACK_MARK line)

/-- Mirror of the `UserInfo` struct (`adb.rs:543`): only the numeric
identifier is retained. -/
structure UserInfo where
  id : Nat
deriving DecidableEq

/-- `UserInfo::get_id` (`adb.rs:552`). -/
def UserInfo.get_id (u : UserInfo) : Nat := u.id

/-- Digit-run parsing for `str::parse::<u16>` once a sign has been
handled: at least one ASCII digit, value at most `65535`. -/
def parseU16core (ds : List Char) : Option Nat :=
  if ds.isEmpty then none
  else if ds.all Char.isDigit then
    if ds.foldl (fun a c => a * 10 + (c.toNat - 48)) 0 ≤ 65535 then
      some (ds.foldl (fun a c => a * 10 + (c.toNat - 48)) 0)
    else none
  else none

/-- Rust `str::parse::<u16>`: optional leading `+`, then at least one
ASCII digit, value at most `65535`; anything else (including a `-` sign)
fails. -/
def parseU16 (l : List Char) : Option Nat :=
  parseU16core
    (match l with
     | '+' :: rest => rest
     | _ => l)

/-- The stripping steps of `PmCommand::list_users` (`adb.rs:531`–`535`):
trim ASCII whitespace, drop an optional leading `UserInfo{` tag, drop an
optional trailing `running` token and the whitespace before it, drop a
trailing `}`, then take the text before the first `:`. -/
def userLineIdField (line : List Char) : Option (List Char) :=
  let s0 := trimAscii line
  let s1 := (stripPre ("UserInfo\x7b".data) s0).getD s0
  let s2 := trimAsciiEnd ((stripSuf ("running".data) s1).getD s1)
  let s3 := (stripSufChar '\x7d' s2).getD s2
  (splitChar ':' s3).head?

/-- The per-line parsing step of `PmCommand::list_users`
(`adb.rs:529`–`537`): extract the identifier field and parse it as a
`u16`; any failure drops the line. -/
def parseUserLine (line : List Char) : Option UserInfo :=
  match userLineIdField line with
  | none => none
  | some first =>
    match parseU16 first with
    | none => none
    | some i => some { id := i }

/-- The pure parsing step of `PmCommand::list_users` (`adb.rs:521`):
skip the header line, parse each remaining line, drop failures. -/
def list_users_parse (raw : List Char) : List UserInfo :=
  ((rustLines raw).drop 1).filterMap parseUserLine

/-! ## The builtin-backend shell dispatcher
(`ACommand::run_shell_command_builtin`, `adb.rs:224`)

Talking to the ADB server is external I/O; the result of the device
enumeration it performs is passed in as `devices` (the identifiers of
the attached devices), and we embed the serial-validation and
command-splitting logic that decides whether a shell command is issued
at all.  The `Except.ok` value is the whitespace-split argument vector
handed to the device shell. -/

/-- `ACommand::run_shell_command_builtin` (`adb.rs:224`), given the
device enumeration: a requested serial absent from the enumeration is
rejected with a message listing the available serials, before any shell
command is issued; an all-whitespace command is also rejected. -/
def builtin_shell_dispatch (device_serial : Option String)
    (devices : List String) (shell_command : String) :
    Except String (List (List Char)) :=
  let proceed : Except String (List (List Char)) :=
    let command_parts := splitWhitespace shell_command.data
    if command_parts.isEmpty then .error "Empty shell command"
    else .ok command_parts
  match device_serial with
  | some serial =>
    if devices.any (fun d => d = serial) then proceed
    else
      .error ("Device '" ++ serial ++ "' not found. Available: " ++
        String.intercalate ", " devices)
  | none => proceed

theorem all_eq_false_of_mem {p : List Char → Bool} {l : List (List Char)}
    {c : List Char} (hc : c ∈ l) (hbad : p c = false) : l.all p = false := by
  cases hall : l.all p with
  | false => rfl
  | true =>
    rw [List.all_eq_true] at hall
    rw [hall c hc] at hbad
    exact absurd hbad (by simp)

/-- C1 (as stated) is false on the code: `"A.a"` splits on `.` into only
two components, each well-formed, yet `PackageId::new` accepts it (the
repository's own `valid_pack_ids` test asserts this acceptance). -/
theorem C1_counterexample_two_components :
    (splitChar '.' ("A.a".data)).length < 3 ∧
      PackageId.new ("A.a".data) ≠ none := by
  decide

/-- C1 (amended): for every input string that splits on `.` into fewer
than 2 components, or that has any component which is empty, starts with
a non-letter, or contains a non-word character after its first character,
`PackageId::new` returns `none`. -/
theorem C1_amended_invalid_ids_rejected (s : List Char)
    (h : (splitChar '.' s).length < 2 ∨
      ∃ c ∈ splitChar '.' s, specComponentOk c = false) :
    PackageId.new s = none := by
  simp only [PackageId.new]
  split
  case h_1 c1 c2 rest heq =>
    rcases h with hlen | ⟨c, hc, hbad⟩
    · rw [heq] at hlen
      simp only [List.length_cons] at hlen
      omega
    · have hcomp : is_pkg_component c = false := by
        rw [is_pkg_component_eq_spec]
        exact hbad
      rw [heq] at hc
      simp only [List.mem_cons] at hc
      have hcond : (is_pkg_component c1 && is_pkg_component c2 &&
          rest.all is_pkg_component) = false := by
        rcases hc with rfl | rfl | hmem
        · rw [hcomp]
          simp
        · rw [hcomp]
          simp
        · rw [all_eq_false_of_mem hmem hcomp]
          simp
      rw [hcond]
      simp
  case h_2 =>
    rfl

/-- Witness for C1 (amended): `"org.0example"` (a component starting with
a digit) is rejected. -/
theorem C1_amended_invalid_ids_rejected_witness :
    PackageId.new ("org.0example".data) = none :=
  C1_amended_invalid_ids_rejected ("org.0example".data) (by decide)

/-- C2: every string with at least 3 dot-separated components, each
matching `[A-Za-z][A-Za-z0-9_]*`, is accepted by `PackageId::new`, and
the wrapped identifier is exactly the original input (round-trip). -/
theorem C2_valid_ids_roundtrip (s : List Char)
    (h3 : 3 ≤ (splitChar '.' s).length)
    (hall : ∀ c ∈ splitChar '.' s, specComponentOk c = true) :
    PackageId.new s = some s := by
  simp only [PackageId.new]
  split
  case h_1 c1 c2 rest heq =>
    rw [heq] at hall
    have h1 : is_pkg_component c1 = true := by
      rw [is_pkg_component_eq_spec]
      exact hall c1 (by simp)
    have h2 : is_pkg_component c2 = true := by
      rw [is_pkg_component_eq_spec]
      exact hall c2 (by simp)
    have hr : rest.all is_pkg_component = true := by
      rw [List.all_eq_true]
      intro x hx
      rw [is_pkg_component_eq_spec]
      exact hall x (by simp [hx])
    rw [h1, h2, hr]
    simp
  case h_2 hne =>
    rcases hl : splitChar '.' s with _ | ⟨a, _ | ⟨b, t⟩⟩
    · rw [hl] at h3
      simp at h3
    · rw [hl] at h3
      simp at h3
    · exact (hne a b t hl).elim

/-- Witness for C2: `"net.hello.world"` validates and round-trips. -/
theorem C2_valid_ids_roundtrip_witness :
    PackageId.new ("net.hello.world".data) = some ("net.hello.world".data) :=
  C2_valid_ids_roundtrip ("net.hello.world".data) (by decide) (by decide)

/-- C3: when the external-backend process exits non-zero, the error
message is the trimmed lossily-decoded stdout whenever that text is
non-empty (regardless of stderr), and the trimmed lossily-decoded stderr
when it is empty. -/
theorem C3_nonzero_exit_error_text (stdout stderr : List Nat) :
    (to_trimmed_utf8 stdout ≠ "" →
      run_system_command false stdout stderr =
        .error (to_trimmed_utf8 stdout)) ∧
    (to_trimmed_utf8 stdout = "" →
      run_system_command false stdout stderr =
        .error (to_trimmed_utf8 stderr)) := by
  constructor
  · intro h
    simp [run_system_command, String.isEmpty_iff, h]
  · intro h
    simp [run_system_command, String.isEmpty_iff, h]

/-- Witness for C3: a failure with stdout `"err\n"` reports `"err"`
despite a non-empty stderr; a failure with whitespace-only stdout
reports the stderr text. -/
theorem C3_nonzero_exit_error_text_witness :
    run_system_command false [101, 114, 114, 10] [120] =
        .error (to_trimmed_utf8 [101, 114, 114, 10]) ∧
      run_system_command false [32, 9] [32, 120, 10] =
        .error (to_trimmed_utf8 [32, 120, 10]) :=
  ⟨(C3_nonzero_exit_error_text [101, 114, 114, 10] [120]).1 (by decide),
   (C3_nonzero_exit_error_text [32, 9] [32, 120, 10]).2 (by decide)⟩

/-- C9: output normalization is total over arbitrary byte sequences
(including ill-formed UTF-8): the lossy decoding of the input splits as
the normalized text followed by the removed tail, the removed tail is
all whitespace, and the kept text does not end in whitespace — so
exactly the trailing whitespace is removed and leading/interior content
is untouched. -/
theorem C9_normalization_trims_exactly_trailing_ws (v : List Nat) :
    utf8Lossy v = (to_trimmed_utf8 v).data ++ wsTail (utf8Lossy v) ∧
    (∀ c ∈ wsTail (utf8Lossy v), isRustWs c = true) ∧
    (∀ c, (to_trimmed_utf8 v).data.getLast? = some c →
      isRustWs c = false) := by
  refine ⟨trimEnd_append_wsTail (utf8Lossy v), ?_, ?_⟩
  · intro c hc
    exact mem_wsTail_ws hc
  · intro c hc
    exact getLast_trimEnd_not_ws (utf8Lossy v) c hc

/-- Witness for C9: on the bytes of `"a "` the decomposition is exact,
the removed `' '` is whitespace, and the kept `'a'` is not. -/
theorem C9_normalization_witness :
    utf8Lossy [97, 32] =
        (to_trimmed_utf8 [97, 32]).data ++ wsTail (utf8Lossy [97, 32]) ∧
      isRustWs ' ' = true ∧ isRustWs 'a' = false :=
  ⟨(C9_normalization_trims_exactly_trailing_ws [97, 32]).1,
   (C9_normalization_trims_exactly_trailing_ws [97, 32]).2.1 ' ' (by decide),
   (C9_normalization_trims_exactly_trailing_ws [97, 32]).2.2 'a' (by decide)⟩

/-- C4: user-list parsing skips the header line, applies the per-line
stripping steps, and drops unparseable lines without failing the call;
the sample listing yields exactly the identifiers `[0, 10]`, also when a
malformed line is interleaved. -/
theorem C4_list_users_parsing :
    (list_users_parse
        ("Users:\nUserInfo\x7b0:Owner:13\x7d running\nUserInfo\x7b10:Guest:0\x7d\n".data)).map
        UserInfo.get_id = [0, 10] ∧
      (list_users_parse
        ("Users:\nUserInfo\x7b0:Owner:13\x7d running\ngarbage line\nUserInfo\x7b10:Guest:0\x7d\n".data)).map
        UserInfo.get_id = [0, 10] := by
  decide

/-- C5: device-list parsing skips the header line and splits each line at
its first tab into `(serial, status)`, skipping tab-less lines; the
sample yields exactly `("ABC123", "device")`. -/
theorem C5_devices_parsing :
    devices_system_parse ("List of devices attached\nABC123\tdevice\n".data) =
        [("ABC123".data, "device".data)] ∧
      devices_system_parse
        ("List of devices attached\nno tab line\nABC123\tdevice".data) =
        [("ABC123".data, "device".data)] := by
  decide

/-- C6: package-list parsing strips the fixed `"package:"` tag, drops
lines without it, preserves order, and does not deduplicate. -/
theorem C6_packages_parsing :
    list_packages_parse ("package:com.foo\npackage:android\n".data) =
        ["com.foo".data, "android".data] ∧
      list_packages_parse
        ("junk\npackage:b.b.b\npackage:a.a.a\npackage:a.a.a".data) =
        ["b.b.b".data, "a.a.a".data, "a.a.a".data] := by
  decide

/-- C7: for every flag/user combination the built shell command is
exactly `pm list packages -s`, then the flag's fixed token (`-u`, `-e`,
`-d`), then `--user N` — the `-s` sub-operation is always issued. -/
theorem C7_list_packages_command (f : PmListPacksFlag) (uid : Nat) :
    PmListPacksFlag.as_str .includeUninstalled = "-u" ∧
    PmListPacksFlag.as_str .onlyEnabled = "-e" ∧
    PmListPacksFlag.as_str .onlyDisabled = "-d" ∧
    list_packages_cmd none none = "pm list packages -s" ∧
    list_packages_cmd (some f) none = "pm list packages -s " ++ f.as_str ∧
    list_packages_cmd none (some uid) =
      "pm list packages -s --user " ++ toString uid ∧
    list_packages_cmd (some f) (some uid) =
      "pm list packages -s " ++ f.as_str ++ " --user " ++ toString uid := by
  cases f <;> exact ⟨rfl, rfl, rfl, rfl, rfl, rfl, rfl⟩

/-- C8: on the builtin backend, a supplied target serial absent from the
device enumeration makes the dispatcher return the
`Device ... not found` error listing the available serials, and no shell
command is issued (the result is an error, not a command vector). -/
theorem C8_missing_serial_rejected (serial : String) (devices : List String)
    (cmd : String) (h : serial ∉ devices) :
    builtin_shell_dispatch (some serial) devices cmd =
      .error ("Device '" ++ serial ++ "' not found. Available: " ++
        String.intercalate ", " devices) := by
  simp only [builtin_shell_dispatch]
  rw [if_neg]
  intro hany
  rw [List.any_eq_true] at hany
  obtain ⟨d, hd, hds⟩ := hany
  rw [decide_eq_true_eq] at hds
  exact h (hds ▸ hd)

/-- Witness for C8: serial `"X"` is not among `["A", "B"]`, so the
dispatcher errors with the available serials. -/
theorem C8_missing_serial_rejected_witness :
    builtin_shell_dispatch (some "X") ["A", "B"] "reboot" =
      .error ("Device '" ++ "X" ++ "' not found. Available: " ++
        String.intercalate ", " ["A", "B"]) :=
  C8_missing_serial_rejected "X" ["A", "B"] "reboot" (by decide)

theorem parseU16core_le (ds : List Char) (n : Nat)
    (h : parseU16core ds = some n) : n ≤ 65535 := by
  unfold parseU16core at h
  split at h
  · exact absurd h (by simp)
  · split at h
    · split at h
      · rw [Option.some.injEq] at h
        omega
      · exact absurd h (by simp)
    · exact absurd h (by simp)

theorem parseU16_le (l : List Char) (n : Nat) (h : parseU16 l = some n) :
    n ≤ 65535 :=
  parseU16core_le _ n h

/-- C10: user identifiers are parsed as 16-bit unsigned integers — any
line whose identifier field is negative, non-numeric or above `65535` is
silently dropped — so every returned `UserInfo` identifier is at most
`65535`. -/
theorem C10_user_ids_bounded (raw : List Char) (u : UserInfo)
    (h : u ∈ list_users_parse raw) : u.get_id ≤ 65535 := by
  unfold list_users_parse at h
  rw [List.mem_filterMap] at h
  obtain ⟨line, _, hline⟩ := h
  unfold parseUserLine at hline
  split at hline
  · exact absurd hline (by simp)
  · rename_i first hfield
    split at hline
    · exact absurd hline (by simp)
    · rename_i i hparse
      rw [Option.some.injEq] at hline
      subst hline
      exact parseU16_le first i hparse

/-- Witness for C10: the sample listing contains the user with
identifier `10`, which is within the 16-bit bound. -/
theorem C10_user_ids_bounded_witness :
    UserInfo.get_id { id := 10 } ≤ 65535 :=
  C10_user_ids_bounded ("Users:\nUserInfo\x7b10:Guest:0\x7d\n".data)
    { id := 10 } (by decide)

end Uadng
